import Mathlib

/-
Verification of the pancon format-converter core against its specification.

The development shallowly embeds the Go source of the repository
(src/main.go, with src/unnamed/part_000 an earlier revision of the same
program whose resolver functions coincide):

  * the codec registry (type Coder, var coders, func coderFor),
  * the format resolver (func coder, func guessformat, and the
    path/filepath extension extraction it relies on),
  * the stream acquisition helper (func file) and its deferred closers,
  * the top-level control flow of func main, modelled as a function
    producing the sequence of externally visible effects (file opens,
    the decode call, the encode call with its output writes) together
    with the outcome (normal exit or the first fatal error).

The three codec bodies (encoding/json, gopkg.in/yaml.v2,
github.com/BurntSushi/toml) are external libraries whose sources are not
part of the repository; where a claim depends on their behaviour the
relevant capability is modelled from the spec and documented as such on
the definition.
-/

set_option autoImplicit false
set_option linter.unusedVariables false

namespace Pancon

/-- A generic document value, the shape of what the codecs place into a Go
`interface\x7b\x7d`.  Scalar leaves are restricted to the common data model of
the spec (strings, integer numbers, booleans); floating-point leaves play
no role in any claim settled here and are omitted. -/
inductive GoValue where
  | str (s : String)
  | int (n : Int)
  | boolean (b : Bool)
  | seq (elems : List GoValue)
  | map (fields : List (String × GoValue))

/-- The errors the program's core can produce, one constructor per
`fmt.Errorf` site (or codec failure) in src/main.go. -/
inductive GoError where
  /-- src/main.go:133 "format is required when %s" -/
  | missingFormat (action : String)
  /-- src/main.go:164 "can not detect format from file %s extension" -/
  | unresolvableExtension (path : String)
  /-- src/main.go:137 "guessing format: %s" wrapping the guessformat error -/
  | guessing (e : GoError)
  /-- src/main.go:144 "unknown input format %s" (used for both directions) -/
  | unknownFormat (format : String)
  /-- src/main.go:124 "opening %s: %s" -/
  | openFailed (path : String)
  /-- a failure reported by a codec decode call -/
  | decodeError
  /-- an error returned by f.Close() on a named file -/
  | closeFailed (path : String)
  deriving DecidableEq, Repr

/-- The Coder registry entry (src/main.go:47-51).  In Go the `Decode` and
`Encode` fields are function values that may be nil; the embedding keeps
the capability information (`Decode != nil`, `Encode != nil`) as the
booleans `hasDecode` and `hasEncode`, the behaviour of the external codec
bodies being supplied separately where needed. -/
structure Coder where
  Format : String
  hasDecode : Bool
  hasEncode : Bool
  deriving DecidableEq, Repr

/-- The registry (src/main.go:53-57): yaml, json, toml, each binding both a
reader and a writer (readYAML/writeYAML etc. are all non-nil). -/
def coders : List Coder :=
  [⟨"yaml", true, true⟩, ⟨"json", true, true⟩, ⟨"toml", true, true⟩]

/-- func coderFor (src/main.go:167-174): first registry entry whose Format
field equals the requested format, else nil.  Parametrised by the registry
list, which in Go is the package-level var `coders`. -/
def coderForIn : List Coder → String → Option Coder
  | [], _ => none
  | c :: rest, format => if c.Format = format then some c else coderForIn rest format

/-- coderFor applied to the program's actual registry. -/
def coderFor (format : String) : Option Coder :=
  coderForIn coders format

/-- The backward scan of Go's path/filepath.Ext: walk the path from its
last byte towards the front, stop without an extension at a path
separator, and yield the suffix from the last dot otherwise.  The input
is the reversed character list of the path; `acc` holds the characters
already walked past, in original order. -/
def extScan : List Char → List Char → Option (List Char)
  | [], _acc => none
  | c :: rest, acc =>
    if c = '/' then none
    else if c = '.' then some ('.' :: acc)
    else extScan rest (c :: acc)

/-- path/filepath.Ext: the suffix beginning at the final dot in the final
slash-separated element of path; empty if there is no dot. -/
def filepathExt (path : String) : String :=
  match extScan path.data.reverse [] with
  | some cs => String.mk cs
  | none => ""

/-- Go strings.ToLower on one character.  The known extension tokens are
all ASCII, so ASCII lowering is the relevant fragment of Go's Unicode
case mapping. -/
def lowerChar (c : Char) : Char :=
  if 'A' ≤ c ∧ c ≤ 'Z' then Char.ofNat (c.toNat + 32) else c

/-- Go strings.ToLower, character by character. -/
def lowerStr (s : String) : String :=
  String.mk (s.data.map lowerChar)

/-- The Go slice expression e[1:] at src/main.go:150: the extension with
its leading dot (a single byte, hence a single character) removed. -/
def dropFirst (s : String) : String :=
  String.mk (s.data.drop 1)

/-- The switch statement of func guessformat (src/main.go:152-159)
normalizing commonly seen extension aliases to canonical identifiers. -/
def normalizeExt (e : String) : String :=
  if e = "js" then "json"
  else if e = "yml" then "yaml"
  else if e = "tml" then "toml"
  else e

/-- func guessformat (src/main.go:147-165): lower-case the filepath
extension; if non-empty strip the leading dot and normalize aliases; then
require the result to be a registered format. -/
def guessformat (cs : List Coder) (file : String) : Except GoError String :=
  let e0 := lowerStr (filepathExt file)
  let e := if e0 ≠ "" then normalizeExt (dropFirst e0) else e0
  if (coderForIn cs e).isSome then .ok e
  else .error (.unresolvableExtension file)

/-- The common registry lookup at the end of func coder
(src/main.go:141-144): a found Coder, or the "unknown input format"
error (the same message is used for the input and the output direction). -/
def coderLookup (cs : List Coder) (format : String) : Except GoError Coder :=
  match coderForIn cs format with
  | some c => .ok c
  | none => .error (.unknownFormat format)

/-- func coder (src/main.go:130-145): an explicit non-empty format goes
straight to the registry lookup; otherwise the path must be usable
(non-empty and not "-") and its guessed format is looked up. -/
def coder (cs : List Coder) (file format action : String) : Except GoError Coder :=
  if format = "" then
    if file = "" ∨ file = "-" then
      .error (.missingFormat action)
    else
      match guessformat cs file with
      | .error e => .error (.guessing e)
      | .ok f => coderLookup cs f
  else
    coderLookup cs format

/-- A byte stream as seen by the core: one of the standard streams, or a
stream obtained by opening a named file. -/
inductive Stream where
  | stdin
  | stdout
  | named (path : String)
  deriving DecidableEq, Repr

/-- The deferred-release closure returned by func file: either the no-op
`func() error \x7b return nil \x7d` for a standard stream, or `f.Close` for a
named file. -/
inductive Closer where
  | noop
  | closeFile (path : String)
  deriving DecidableEq, Repr

/-- Externally visible effects of one invocation. -/
inductive Event where
  | osOpen (path : String)
  | osCreate (path : String)
  | decodeCall
  | encodeCall
  | writeOutput
  | closeCall (path : String)
  deriving DecidableEq, Repr

/-- func file (src/main.go:118-128).  The Go function receives the opener
(os.Open or os.Create) as a parameter; the embedding receives the event
that calling the opener emits (`openEvent`) and whether the opener
succeeds (`openOk`), and returns the emitted events alongside the Go
result.  The unused `format` parameter is kept from the source. -/
def file (name format : String) (defaultfile : Stream) (openEvent : Event) (openOk : Bool) :
    List Event × Except GoError (Stream × Closer) :=
  if name = "" ∨ name = "-" then
    ([], .ok (defaultfile, .noop))
  else if openOk then
    ([openEvent], .ok (.named name, .closeFile name))
  else
    ([openEvent], .error (.openFailed name))

/-- Running a deferred closer: the no-op closer closes nothing and never
errs; the named-file closer performs the close, which may fail. -/
def runCloser (c : Closer) (closeOk : Bool) : List Event × Option GoError :=
  match c with
  | .noop => ([], none)
  | .closeFile p => ([.closeCall p], if closeOk then none else some (.closeFailed p))

/-- Modelled from the spec: the decode step at the call site
`incoder.Decode(&data, infile)` with `data : map[string]interface\x7b\x7d`
(src/main.go:111-113).  The codec decode bodies (encoding/json,
gopkg.in/yaml.v2, github.com/BurntSushi/toml) are external libraries not
present in the repository, so the step is modelled by its observable
outcome only: the call either returns an error — surfacing, per spec
section 7, as a `DecodeError` — or returns nil having left a string-keyed
mapping in `data` (the latter shape forced by data's Go type).  Which
byte inputs make a given codec err is codec-dependent external behaviour
and is deliberately not modelled. -/
def decodeIntoMap : Except Unit (List (String × GoValue)) → Except GoError (List (String × GoValue))
  | .error _ => .error .decodeError
  | .ok kvs => .ok kvs

/-- The environment of one invocation: the outcome of parsing the input
stream (`Except.error ()` when the codec call reports a failure, `.ok kvs`
for the mapping it leaves in `data` otherwise), and whether the OS
open/create calls and the encode call succeed. -/
structure World where
  rawInput : Except Unit (List (String × GoValue))
  openInputOk : Bool
  openOutputOk : Bool
  encodeOk : Bool

/-- The fatal outcomes of func main, one constructor per
app.FatalIfError / app.Fatalf site, in source order (src/main.go:91-115). -/
inductive MainErr where
  | input (e : GoError)
  | inputNotSupportedForDecoding (format : String)
  | output (e : GoError)
  | outputNotSupportedForEncoding (format : String)
  | openingInput (e : GoError)
  | openingOutput (e : GoError)
  | decoding
  | encoding
  deriving DecidableEq, Repr

/-- The control flow of func main after flag parsing (src/main.go:91-115),
returning the events the invocation emitted and its outcome (`none` for a
normal exit).  Note the output-direction capability guard: the source at
src/main.go:99 tests `outcoder.Decode == nil` (not `outcoder.Encode`)
while reporting "output format %s not supported for encoding"; the
embedding reproduces that test faithfully. -/
def mainFlow (cs : List Coder) (inputFile inputFormat outputFile outputFormat : String)
    (w : World) : List Event × Option MainErr :=
  match coder cs inputFile inputFormat "reading from stdin" with
  | .error e => ([], some (.input e))
  | .ok incoder =>
    if incoder.hasDecode = false then
      ([], some (.inputNotSupportedForDecoding incoder.Format))
    else
      match coder cs outputFile outputFormat "writing to stdout" with
      | .error e => ([], some (.output e))
      | .ok outcoder =>
        if outcoder.hasDecode = false then
          ([], some (.outputNotSupportedForEncoding outcoder.Format))
        else
          match file inputFile inputFormat .stdin (.osOpen inputFile) w.openInputOk with
          | (evs1, .error e) => (evs1, some (.openingInput e))
          | (evs1, .ok _infile) =>
            match file outputFile outputFormat .stdout (.osCreate outputFile) w.openOutputOk with
            | (evs2, .error e) => (evs1 ++ evs2, some (.openingOutput e))
            | (evs2, .ok _outfile) =>
              match decodeIntoMap w.rawInput with
              | .error _ => (evs1 ++ evs2 ++ [.decodeCall], some .decoding)
              | .ok _data =>
                if w.encodeOk then
                  (evs1 ++ evs2 ++ [.decodeCall, .encodeCall, .writeOutput], none)
                else
                  (evs1 ++ evs2 ++ [.decodeCall, .encodeCall, .writeOutput], some .encoding)

/-- The six extension tokens recognized during inference. -/
def knownExts : List String := ["json", "yaml", "toml", "yml", "tml", "js"]

/-- The raw extension token extension inference starts from: the filepath
extension, lower-cased, with the leading dot removed (empty when the path
has no extension). -/
def rawExt (p : String) : String :=
  dropFirst (lowerStr (filepathExt p))

/-! Helper lemmas shared by the claim theorems. -/

theorem guessformat_eq (cs : List Coder) (p : String) :
    guessformat cs p =
      if (coderForIn cs (normalizeExt (rawExt p))).isSome then
        .ok (normalizeExt (rawExt p))
      else .error (.unresolvableExtension p) := by
  unfold guessformat rawExt
  by_cases h : lowerStr (filepathExt p) = ""
  · rw [h]
    rfl
  · simp [h]

theorem coderForIn_normalize_of_mem (s : String) (h : s ∈ knownExts) :
    ∃ c, coderForIn coders (normalizeExt s) = some c ∧ c.Format = normalizeExt s := by
  simp only [knownExts, List.mem_cons, List.not_mem_nil, or_false] at h
  rcases h with rfl | rfl | rfl | rfl | rfl | rfl
  all_goals exact ⟨_, rfl, rfl⟩

theorem coderForIn_normalize_of_not_mem (s : String) (h : s ∉ knownExts) :
    coderForIn coders (normalizeExt s) = none := by
  simp only [knownExts, List.mem_cons, List.not_mem_nil, or_false, not_or] at h
  obtain ⟨h1, h2, h3, h4, h5, h6⟩ := h
  have hs : normalizeExt s = s := by
    unfold normalizeExt
    rw [if_neg h6, if_neg h4, if_neg h5]
  rw [hs]
  have hy : ¬ ("yaml" = s) := fun hh => h2 hh.symm
  have hj : ¬ ("json" = s) := fun hh => h1 hh.symm
  have ht : ¬ ("toml" = s) := fun hh => h3 hh.symm
  simp [coders, coderForIn, hy, hj, ht]

theorem file_fst_cases (name format : String) (d : Stream) (ev : Event) (ok : Bool) :
    (file name format d ev ok).1 = [] ∨ (file name format d ev ok).1 = [ev] := by
  unfold file
  split_ifs <;> simp

theorem mainFlow_decode_fail (cs : List Coder) (inF inFmt outF outFmt : String) (w : World)
    (h : ∀ m, decodeIntoMap w.rawInput ≠ .ok m) :
    Event.encodeCall ∉ (mainFlow cs inF inFmt outF outFmt w).1
    ∧ Event.writeOutput ∉ (mainFlow cs inF inFmt outF outFmt w).1
    ∧ (mainFlow cs inF inFmt outF outFmt w).2 ≠ none
    ∧ (Event.decodeCall ∈ (mainFlow cs inF inFmt outF outFmt w).1 →
        (mainFlow cs inF inFmt outF outFmt w).2 = some MainErr.decoding) := by
  cases hc1 : coder cs inF inFmt "reading from stdin" with
  | error e => simp [mainFlow, hc1]
  | ok incoder =>
    by_cases hd1 : incoder.hasDecode = false
    · simp [mainFlow, hc1, hd1]
    · cases hc2 : coder cs outF outFmt "writing to stdout" with
      | error e => simp [mainFlow, hc1, hc2, hd1]
      | ok outcoder =>
        by_cases hd2 : outcoder.hasDecode = false
        · simp [mainFlow, hc1, hc2, hd1, hd2]
        · have hev1 := file_fst_cases inF inFmt .stdin (.osOpen inF) w.openInputOk
          cases hf1 : file inF inFmt .stdin (.osOpen inF) w.openInputOk with
          | mk evs1 r1 =>
            rw [hf1] at hev1
            cases r1 with
            | error e =>
              rcases hev1 with rfl | rfl <;> simp [mainFlow, hc1, hc2, hd1, hd2, hf1]
            | ok infile =>
              have hev2 := file_fst_cases outF outFmt .stdout (.osCreate outF) w.openOutputOk
              cases hf2 : file outF outFmt .stdout (.osCreate outF) w.openOutputOk with
              | mk evs2 r2 =>
                rw [hf2] at hev2
                cases r2 with
                | error e =>
                  rcases hev1 with rfl | rfl <;> rcases hev2 with rfl | rfl <;>
                    simp [mainFlow, hc1, hc2, hd1, hd2, hf1, hf2]
                | ok outfile =>
                  cases hm : decodeIntoMap w.rawInput with
                  | ok m => exact absurd hm (h m)
                  | error e =>
                    rcases hev1 with rfl | rfl <;> rcases hev2 with rfl | rfl <;>
                      simp [mainFlow, hc1, hc2, hd1, hd2, hf1, hf2, hm]

theorem data_reverse_append (p s : String) :
    (p ++ s).data.reverse = s.data.reverse ++ p.data.reverse := by
  rw [String.data_append, List.reverse_append]

theorem filepathExt_dot_yml (p : String) : filepathExt (p ++ ".yml") = ".yml" := by
  unfold filepathExt
  rw [data_reverse_append]
  rfl

theorem filepathExt_dot_tml (p : String) : filepathExt (p ++ ".tml") = ".tml" := by
  unfold filepathExt
  rw [data_reverse_append]
  rfl

theorem filepathExt_dot_js (p : String) : filepathExt (p ++ ".js") = ".js" := by
  unfold filepathExt
  rw [data_reverse_append]
  rfl

/-! The claim theorems. -/

/-- Claim C3: for every path p and every valid explicit format f in
`json`, `yaml`, `toml`, format resolution with explicit format f returns
f's registry binding without consulting p, even when p's extension would
infer a different format and even when p is absent or the sentinel "-"
(the universally quantified p covers all of these). -/
theorem c3_explicit_format_wins (p a : String) :
    coder coders p "json" a = .ok ⟨"json", true, true⟩
    ∧ coder coders p "yaml" a = .ok ⟨"yaml", true, true⟩
    ∧ coder coders p "toml" a = .ok ⟨"toml", true, true⟩ :=
  ⟨rfl, rfl, rfl⟩

/-- Claim C4: when no explicit format is given and the path is absent
(empty) or the sentinel "-", format resolution fails with the
missing-format error carrying the caller-supplied action description, not
with an extension-inference error. -/
theorem c4_missing_format (a : String) :
    coder coders "" "" a = .error (.missingFormat a)
    ∧ coder coders "-" "" a = .error (.missingFormat a) :=
  ⟨rfl, rfl⟩

/-- Claim C9: when the path is unset or equals "-", func file substitutes
the given default standard stream and hands back the no-op closer, and
running the no-op closer emits no close call and no close error; only the
closer of a named file performs a close. -/
theorem c9_std_streams_never_closed (format : String) (d : Stream) (ev : Event)
    (openOk closeOk : Bool) :
    file "" format d ev openOk = ([], .ok (d, .noop))
    ∧ file "-" format d ev openOk = ([], .ok (d, .noop))
    ∧ runCloser .noop closeOk = ([], none) :=
  ⟨rfl, rfl, rfl⟩

/-- Claim C7: the alias tokens yml, tml and js are rejected when supplied
as explicit formats (the registry lookup on the explicit path knows no
aliases), while extension inference maps paths ending in .yml, .tml and
.js to yaml, toml and json respectively. -/
theorem c7_aliases_only_during_inference (p a : String) :
    coder coders p "yml" a = .error (.unknownFormat "yml")
    ∧ coder coders p "tml" a = .error (.unknownFormat "tml")
    ∧ coder coders p "js" a = .error (.unknownFormat "js")
    ∧ guessformat coders (p ++ ".yml") = .ok "yaml"
    ∧ guessformat coders (p ++ ".tml") = .ok "toml"
    ∧ guessformat coders (p ++ ".js") = .ok "json" := by
  refine ⟨rfl, rfl, rfl, ?_, ?_, ?_⟩
  · unfold guessformat
    rw [filepathExt_dot_yml]
    rfl
  · unfold guessformat
    rw [filepathExt_dot_tml]
    rfl
  · unfold guessformat
    rw [filepathExt_dot_js]
    rfl

/-- Claim C2: for every path whose filename extension, after lower-casing
and dot-stripping, is one of the six known tokens, extension inference
returns the alias-normalized canonical identifier (and format resolution
with no explicit format returns that format's binding); for every other
path the inference fails with the unresolvable-extension error naming the
path (and format resolution, on paths other than the absent/"-" cases of
claim C4, fails with that error wrapped by "guessing format"). -/
theorem c2_extension_inference (p a : String) :
    (rawExt p ∈ knownExts →
        guessformat coders p = .ok (normalizeExt (rawExt p))
        ∧ ∃ c, coder coders p "" a = .ok c ∧ c.Format = normalizeExt (rawExt p))
    ∧ (rawExt p ∉ knownExts →
        guessformat coders p = .error (.unresolvableExtension p)
        ∧ (p ≠ "" → p ≠ "-" →
            coder coders p "" a = .error (.guessing (.unresolvableExtension p)))) := by
  constructor
  · intro h
    obtain ⟨c, hc, hfmt⟩ := coderForIn_normalize_of_mem (rawExt p) h
    have hg : guessformat coders p = .ok (normalizeExt (rawExt p)) := by
      rw [guessformat_eq, hc]
      rfl
    have hp1 : p ≠ "" := by
      rintro rfl
      exact absurd h (by decide)
    have hp2 : p ≠ "-" := by
      rintro rfl
      exact absurd h (by decide)
    refine ⟨hg, c, ?_, hfmt⟩
    unfold coder
    rw [if_pos rfl, if_neg (by simp [hp1, hp2]), hg]
    simp [coderLookup, hc]
  · intro h
    have hnone := coderForIn_normalize_of_not_mem (rawExt p) h
    have hg : guessformat coders p = .error (.unresolvableExtension p) := by
      rw [guessformat_eq, hnone]
      rfl
    refine ⟨hg, fun hp1 hp2 => ?_⟩
    unfold coder
    rw [if_pos rfl, if_neg (by simp [hp1, hp2]), hg]

/-- Witness for claim C2 at the paths "conf.YML" (upper-case alias
extension) and "notes.txt" (unknown extension). -/
theorem c2_extension_inference_witness :
    guessformat coders "conf.YML" = .ok (normalizeExt (rawExt "conf.YML"))
    ∧ (∃ c, coder coders "conf.YML" "" "reading from stdin" = .ok c
        ∧ c.Format = normalizeExt (rawExt "conf.YML"))
    ∧ guessformat coders "notes.txt" = .error (.unresolvableExtension "notes.txt")
    ∧ coder coders "notes.txt" "" "reading from stdin"
        = .error (.guessing (.unresolvableExtension "notes.txt")) := by
  obtain ⟨h1, h2⟩ := (c2_extension_inference "conf.YML" "reading from stdin").1 (by decide)
  obtain ⟨h3, h4⟩ := (c2_extension_inference "notes.txt" "reading from stdin").2 (by decide)
  exact ⟨h1, h2, h3, h4 (by decide) (by decide)⟩

/-- Claim C6: whenever the decode call fails (malformed syntax, truncated
input, or any other failure the codec reports), the run emits no encode
call and writes no bytes to the output stream, it does not exit normally,
and if the failure happened at the decode call itself the outcome is the
"decoding" fatal error. -/
theorem c6_decode_failure_no_output (inF inFmt outF outFmt : String) (w : World)
    (e : GoError) (h : decodeIntoMap w.rawInput = .error e) :
    Event.encodeCall ∉ (mainFlow coders inF inFmt outF outFmt w).1
    ∧ Event.writeOutput ∉ (mainFlow coders inF inFmt outF outFmt w).1
    ∧ (mainFlow coders inF inFmt outF outFmt w).2 ≠ none
    ∧ (Event.decodeCall ∈ (mainFlow coders inF inFmt outF outFmt w).1 →
        (mainFlow coders inF inFmt outF outFmt w).2 = some MainErr.decoding) :=
  mainFlow_decode_fail coders inF inFmt outF outFmt w
    (fun m hm => by rw [h] at hm; exact Except.noConfusion hm)

/-- Witness for claim C6: converting the malformed input stream (rawInput
parses to an error) from a .json file to yaml on stdout. -/
theorem c6_decode_failure_no_output_witness :
    Event.encodeCall ∉ (mainFlow coders "in.json" "" "" "yaml" ⟨.error (), true, true, true⟩).1
    ∧ Event.writeOutput ∉ (mainFlow coders "in.json" "" "" "yaml" ⟨.error (), true, true, true⟩).1
    ∧ (mainFlow coders "in.json" "" "" "yaml" ⟨.error (), true, true, true⟩).2 ≠ none
    ∧ (Event.decodeCall ∈ (mainFlow coders "in.json" "" "" "yaml" ⟨.error (), true, true, true⟩).1 →
        (mainFlow coders "in.json" "" "" "yaml" ⟨.error (), true, true, true⟩).2
          = some MainErr.decoding) :=
  c6_decode_failure_no_output "in.json" "" "" "yaml" ⟨.error (), true, true, true⟩
    .decodeError rfl

/-- Claim C8: when either format resolution fails (in particular for an
explicit format token outside the registry), the run performs no I/O at
all — no open or create call, no decode, no encode — and exits fatally. -/
theorem c8_resolution_failure_before_io (inF inFmt outF outFmt : String) (w : World)
    (h : (∃ e, coder coders inF inFmt "reading from stdin" = .error e)
       ∨ (∃ e, coder coders outF outFmt "writing to stdout" = .error e)) :
    (mainFlow coders inF inFmt outF outFmt w).1 = []
    ∧ (mainFlow coders inF inFmt outF outFmt w).2 ≠ none := by
  rcases h with ⟨e, he⟩ | ⟨e, he⟩
  · simp [mainFlow, he]
  · cases hc1 : coder coders inF inFmt "reading from stdin" with
    | error e1 => simp [mainFlow, hc1]
    | ok incoder =>
      by_cases hd1 : incoder.hasDecode = false
      · simp [mainFlow, hc1, hd1]
      · simp [mainFlow, hc1, hd1, he]

/-- Witness for claim C8 at the unknown explicit input format "foo". -/
theorem c8_resolution_failure_before_io_witness :
    (mainFlow coders "" "foo" "" "yaml" ⟨.ok [], true, true, true⟩).1 = []
    ∧ (mainFlow coders "" "foo" "" "yaml" ⟨.ok [], true, true, true⟩).2 ≠ none :=
  c8_resolution_failure_before_io "" "foo" "" "yaml" ⟨.ok [], true, true, true⟩
    (Or.inl ⟨.unknownFormat "foo", rfl⟩)

/-- Claim C1 (code bug): the output-direction capability guard in func
main (src/main.go:99) tests the binding's Decode field, not its Encode
field, although its message reads "not supported for encoding".  With a
registry extended by a decode-only binding "xml" selected as the output
format, the run is not rejected before decoding as the claim requires: it
proceeds through decode and encode and exits normally, even though the
"xml" binding has no encode operation. -/
theorem c1_output_check_reads_decode_capability :
    (Coder.mk "xml" true false).hasEncode = false
    ∧ mainFlow (coders ++ [Coder.mk "xml" true false]) "in.json" "" "" "xml"
        ⟨.ok [], true, true, true⟩
      = ([.osOpen "in.json", .decodeCall, .encodeCall, .writeOutput], none) :=
  ⟨rfl, rfl⟩

end Pancon
